import Mathlib

/-!
Shallow embedding of the ray-caster in src/EmptyViewer/Main_EmptyViewer.cpp.
Float arithmetic is idealised as real arithmetic; sqrtf is Real.sqrt.
The geometric primitives (Ray, Sphere, Plane, Camera, Scene.findNearest)
and the render/resize logic are transcribed from the source.
-/

open Real

/-- Three-component vector, mirroring glm::vec3 (float components idealised as reals). -/
structure Vec3 where
  x : ℝ
  y : ℝ
  z : ℝ

namespace Vec3

/-- Componentwise subtraction, mirroring glm vector subtraction. -/
def sub (a b : Vec3) : Vec3 := ⟨a.x - b.x, a.y - b.y, a.z - b.z⟩

/-- Dot product, mirroring glm::dot. -/
def dot (a b : Vec3) : ℝ := a.x * b.x + a.y * b.y + a.z * b.z

/-- Scalar multiple of a vector. -/
def smul (c : ℝ) (v : Vec3) : Vec3 := ⟨c * v.x, c * v.y, c * v.z⟩

/-- Squared euclidean length. -/
def len2 (v : Vec3) : ℝ := dot v v

/-- Euclidean length, mirroring glm::length. -/
noncomputable def length (v : Vec3) : ℝ := Real.sqrt (len2 v)

/-- glm::normalize: the vector scaled by the reciprocal of its length. -/
noncomputable def normalize (v : Vec3) : Vec3 := smul (length v)⁻¹ v

end Vec3

/-- Ray record: origin plus stored direction (Main_EmptyViewer.cpp lines 26-32). -/
structure Ray where
  origin : Vec3
  direction : Vec3

/-- The Ray constructor normalizes the given direction (line 30-31). -/
noncomputable def Ray.make (o d : Vec3) : Ray := ⟨o, Vec3.normalize d⟩

/-- Sphere data: center and radius (lines 43-47). -/
structure Sphere where
  center : Vec3
  radius : ℝ

/-- Sphere::intersect (lines 48-60): quadratic in t, returns t1 if t1 > 0.001,
else t2 if t2 > 0.001, else -1; -1 when the discriminant is negative. -/
noncomputable def Sphere.intersect (s : Sphere) (ray : Ray) : ℝ :=
  let oc := Vec3.sub ray.origin s.center
  let b := 2 * Vec3.dot ray.direction oc
  let c_val := Vec3.dot oc oc - s.radius * s.radius
  let disc := b * b - 4 * c_val
  if disc < 0 then -1
  else
    let sqrtDisc := Real.sqrt disc
    let t1 := (-b - sqrtDisc) * 0.5
    let t2 := (-b + sqrtDisc) * 0.5
    if t1 > 0.001 then t1
    else if t2 > 0.001 then t2
    else -1

/-- Plane data: the plane y = const (lines 64-67). -/
structure Plane where
  y : ℝ

/-- Plane::intersect (lines 68-72): -1 when |direction.y| < 1e-6, else
t = (y - origin.y)/direction.y if t > 0.001, else -1. -/
noncomputable def Plane.intersect (p : Plane) (ray : Ray) : ℝ :=
  if |ray.direction.y| < 1e-6 then -1
  else
    let t := (p.y - ray.origin.y) / ray.direction.y
    if t > 0.001 then t else -1

/-- Closed sum of the two Surface subclasses present in the program. -/
inductive Surface where
  | sphere (s : Sphere)
  | plane (p : Plane)

/-- Virtual dispatch of Surface::intersect. -/
noncomputable def Surface.intersect : Surface → Ray → ℝ
  | .sphere s, ray => s.intersect ray
  | .plane p, ray => p.intersect ray

/-- Camera data (lines 76-81): eye plus viewport window l, r, b, t and distance d. -/
structure Camera where
  eye : Vec3
  l : ℝ
  r : ℝ
  b : ℝ
  t : ℝ
  d : ℝ

/-- Camera::generateRay (lines 83-88): pixel-center mapping to the image plane,
ray from eye through the image point (direction normalized by the Ray constructor). -/
noncomputable def Camera.generateRay (cam : Camera) (i j : ℕ) (nx ny : ℕ) : Ray :=
  Ray.make cam.eye
    (Vec3.sub
      ⟨cam.l + (cam.r - cam.l) * (((i : ℝ) + 0.5) / (nx : ℝ)),
       cam.b + (cam.t - cam.b) * (((j : ℝ) + 0.5) / (ny : ℝ)),
       -cam.d⟩
      cam.eye)

/-- Scene::findNearest (lines 101-109): fold over the owned surfaces keeping the
smallest positive intersection parameter, starting from the sentinel -1. -/
noncomputable def findNearest (objects : List Surface) (ray : Ray) : ℝ :=
  objects.foldl
    (fun t_nearest obj =>
      let t := obj.intersect ray
      if 0 < t ∧ (t_nearest < 0 ∨ t < t_nearest) then t else t_nearest)
    (-1)

/-- Row-major traversal order of the render loop (lines 130-131): for each
row j in [0,512), each column i in [0,512), the pair (j, i). -/
def pixelIndices : List (ℕ × ℕ) :=
  (List.range 512).flatMap (fun j => (List.range 512).map (fun i => (j, i)))

/-- One iteration of the render loop body (lines 132-146): cast the pixel's ray,
query the scene, and write white or black into the pixel's three channels at
flat index (j*512+i)*3.  The buffer is modelled as a function from flat index
to stored value. -/
noncomputable def renderWrite (cam : Camera) (scn : List Surface)
    (buf : ℕ → ℝ) (ji : ℕ × ℕ) : ℕ → ℝ :=
  let ray := cam.generateRay ji.2 ji.1 512 512
  let t := findNearest scn ray
  let index := (ji.1 * 512 + ji.2) * 3
  if 0 < t then
    fun k => if k = index then 1 else if k = index + 1 then 1
             else if k = index + 2 then 1 else buf k
  else
    fun k => if k = index then 0 else if k = index + 1 then 0
             else if k = index + 2 then 0 else buf k

/-- The render function (lines 124-149): the buffer is cleared and resized to
512*512*3 zero entries (nx and ny are the constants 512 in the source,
independent of the window size), then every pixel of the fixed 512x512 grid is
written in row-major order.  (Marked irreducible so that definitional
unfolding never evaluates the 262144-step fold; proofs use the equation
lemma instead.) -/
@[irreducible] noncomputable def render (cam : Camera) (scn : List Surface) : ℕ → ℝ :=
  pixelIndices.foldl (renderWrite cam scn) (fun _ => 0)

/-- The mutable globals of the program (lines 115-117): Width, Height and the
output image buffer. -/
structure GState where
  Width : ℤ
  Height : ℤ
  OutputImage : ℕ → ℝ

/-- A render pass over the globals: only the output buffer is replaced. -/
noncomputable def renderState (cam : Camera) (scn : List Surface) (st : GState) : GState :=
  { st with OutputImage := render cam scn }

/-- resize_callback (lines 154-163): stores the new width and height and
re-runs render (the GL viewport calls mutate no modelled state). -/
noncomputable def resize_callback (cam : Camera) (scn : List Surface)
    (_st : GState) (nw nh : ℤ) : GState :=
  { Width := nw, Height := nh, OutputImage := render cam scn }

lemma renderState_OutputImage (cam : Camera) (scn : List Surface) (st : GState) :
    (renderState cam scn st).OutputImage = render cam scn := rfl

lemma resize_OutputImage (cam : Camera) (scn : List Surface) (st : GState)
    (nw nh : ℤ) : (resize_callback cam scn st nw nh).OutputImage = render cam scn :=
  rfl

lemma resize_Width (cam : Camera) (scn : List Surface) (st : GState) (nw nh : ℤ) :
    (resize_callback cam scn st nw nh).Width = nw := rfl

lemma resize_Height (cam : Camera) (scn : List Surface) (st : GState) (nw nh : ℤ) :
    (resize_callback cam scn st nw nh).Height = nh := rfl

/-- The camera built in main (line 188): eye (0,0,0), window
l=-0.1, r=0.1, b=-0.1, t=0.1, d=0.1. -/
def camera0 : Camera := ⟨⟨0, 0, 0⟩, -0.1, 0.1, -0.1, 0.1, 0.1⟩

/-- The scene built in main (lines 192-198): plane y=-2, then spheres at
(-4,0,-7) r=1, (0,0,-7) r=2, (4,0,-7) r=1, in push_back order. -/
def scene0 : List Surface :=
  [Surface.plane ⟨-2⟩,
   Surface.sphere ⟨⟨-4, 0, -7⟩, 1⟩,
   Surface.sphere ⟨⟨0, 0, -7⟩, 2⟩,
   Surface.sphere ⟨⟨4, 0, -7⟩, 1⟩]

/-- The initial global state before the first resize_callback call in main. -/
def initState : GState := ⟨512, 512, fun _ => 0⟩

/-- Modelled from the spec: the output buffer that section 4.5 of the spec
prescribes for a render pass at resolution W x H, as claimed for the pass run
after a resize: every row j in [0,H) and column i in [0,W) is visited and the
pixel's binary color is written at flat index (j*W + i)*3.  This definition
follows the claim's words and exists only to be compared with the render
function transcribed from the source. -/
noncomputable def renderAsSpecified (cam : Camera) (scn : List Surface)
    (W H : ℕ) : ℕ → ℝ :=
  fun idx =>
    if idx < W * H * 3 then
      let p := idx / 3
      let i := p % W
      let j := p / W
      if 0 < findNearest scn (cam.generateRay i j W H) then 1 else 0
    else 0

/-!  Helper lemmas: the nearest-hit fold computes the minimum positive value. -/

/-- The loop body of Scene::findNearest, abstracted over the candidate value. -/
noncomputable def minStep (a t : ℝ) : ℝ :=
  if 0 < t ∧ (a < 0 ∨ t < a) then t else a

lemma findNearest_eq_foldl (objects : List Surface) (ray : Ray) :
    findNearest objects ray =
      (objects.map (fun s => s.intersect ray)).foldl minStep (-1) := by
  rw [List.foldl_map]
  rfl

lemma foldl_minStep_no_pos : ∀ (xs : List ℝ) (a : ℝ), (∀ x ∈ xs, ¬ 0 < x) →
    xs.foldl minStep a = a
  | [], _, _ => rfl
  | x :: xs, a, h => by
      have hx : ¬ 0 < x := h x (List.mem_cons_self x xs)
      have hstep : minStep a x = a := by simp [minStep, hx]
      rw [List.foldl_cons, hstep]
      exact foldl_minStep_no_pos xs a (fun y hy => h y (List.mem_cons_of_mem x hy))

lemma foldl_minStep_pos : ∀ (xs : List ℝ) (a : ℝ), 0 < a →
    0 < xs.foldl minStep a ∧ xs.foldl minStep a ≤ a ∧
    (xs.foldl minStep a = a ∨ xs.foldl minStep a ∈ xs) ∧
    (∀ x ∈ xs, 0 < x → xs.foldl minStep a ≤ x)
  | [], a, ha => ⟨ha, le_refl a, Or.inl rfl, by simp⟩
  | x :: xs, a, ha => by
      rw [List.foldl_cons]
      by_cases hx : 0 < x ∧ (a < 0 ∨ x < a)
      · have hstep : minStep a x = x := if_pos hx
        rw [hstep]
        obtain ⟨h1, h2, h3, h4⟩ := foldl_minStep_pos xs x hx.1
        have hxa : x < a := hx.2.resolve_left (by linarith)
        refine ⟨h1, le_trans h2 (le_of_lt hxa), ?_, ?_⟩
        · cases h3 with
          | inl h => exact Or.inr (by rw [h]; exact List.mem_cons_self x xs)
          | inr h => exact Or.inr (List.mem_cons_of_mem x h)
        · intro y hy hy0
          rcases List.mem_cons.mp hy with h | hmem
          · exact h ▸ h2
          · exact h4 y hmem hy0
      · have hstep : minStep a x = a := if_neg hx
        rw [hstep]
        obtain ⟨h1, h2, h3, h4⟩ := foldl_minStep_pos xs a ha
        refine ⟨h1, h2, ?_, ?_⟩
        · cases h3 with
          | inl h => exact Or.inl h
          | inr h => exact Or.inr (List.mem_cons_of_mem x h)
        · intro y hy hy0
          rcases List.mem_cons.mp hy with h | hmem
          · have hor : ¬ (a < 0 ∨ y < a) := fun hc => hx ⟨h ▸ hy0, h ▸ hc⟩
            push_neg at hor
            exact le_trans h2 hor.2
          · exact h4 y hmem hy0

lemma foldl_minStep_init : ∀ (xs : List ℝ),
    (xs.foldl minStep (-1) = -1 ∧ ∀ x ∈ xs, ¬ 0 < x) ∨
    (0 < xs.foldl minStep (-1) ∧ xs.foldl minStep (-1) ∈ xs ∧
      ∀ x ∈ xs, 0 < x → xs.foldl minStep (-1) ≤ x)
  | [] => Or.inl ⟨rfl, by simp⟩
  | x :: xs => by
      rw [List.foldl_cons]
      by_cases hx : 0 < x
      · have hstep : minStep (-1) x = x := if_pos ⟨hx, Or.inl (by norm_num)⟩
        rw [hstep]
        obtain ⟨h1, h2, h3, h4⟩ := foldl_minStep_pos xs x hx
        right
        refine ⟨h1, ?_, ?_⟩
        · cases h3 with
          | inl h => exact (by rw [h]; exact List.mem_cons_self x xs)
          | inr h => exact List.mem_cons_of_mem x h
        · intro y hy hy0
          rcases List.mem_cons.mp hy with h | hmem
          · exact h ▸ h2
          · exact h4 y hmem hy0
      · have hstep : minStep (-1) x = -1 := if_neg (fun hc => hx hc.1)
        rw [hstep]
        cases foldl_minStep_init xs with
        | inl h =>
            refine Or.inl ⟨h.1, fun y hy => ?_⟩
            rcases List.mem_cons.mp hy with h2 | hmem
            · exact h2 ▸ hx
            · exact h.2 y hmem
        | inr h =>
            refine Or.inr ⟨h.1, List.mem_cons_of_mem x h.2.1, fun y hy hy0 => ?_⟩
            rcases List.mem_cons.mp hy with h2 | hmem
            · exact absurd (h2 ▸ hy0) hx
            · exact h.2.2 y hmem hy0

lemma findNearest_none (objects : List Surface) (ray : Ray)
    (h : ∀ s ∈ objects, ¬ 0 < s.intersect ray) : findNearest objects ray = -1 := by
  rw [findNearest_eq_foldl]
  refine foldl_minStep_no_pos _ _ ?_
  intro x hx
  obtain ⟨s, hs, rfl⟩ := List.mem_map.mp hx
  exact h s hs

lemma findNearest_found (objects : List Surface) (ray : Ray)
    (h : ∃ s ∈ objects, 0 < s.intersect ray) :
    0 < findNearest objects ray ∧
    (∃ s ∈ objects, findNearest objects ray = s.intersect ray) ∧
    ∀ s ∈ objects, 0 < s.intersect ray → findNearest objects ray ≤ s.intersect ray := by
  rw [findNearest_eq_foldl]
  cases foldl_minStep_init (objects.map (fun s => s.intersect ray)) with
  | inl hc =>
      obtain ⟨s, hs, hpos⟩ := h
      exact absurd hpos (hc.2 _ (List.mem_map_of_mem _ hs))
  | inr hc =>
      obtain ⟨s, hs, hval⟩ := List.mem_map.mp hc.2.1
      exact ⟨hc.1, ⟨s, hs, hval.symm⟩,
        fun s2 hs2 hp2 => hc.2.2 _ (List.mem_map_of_mem _ hs2) hp2⟩

lemma findNearest_pos_iff (objects : List Surface) (ray : Ray) :
    0 < findNearest objects ray ↔ ∃ s ∈ objects, 0 < s.intersect ray := by
  constructor
  · intro h
    by_contra hc
    push_neg at hc
    have := findNearest_none objects ray (fun s hs => not_lt.mpr (hc s hs))
    rw [this] at h
    norm_num at h
  · exact fun h => (findNearest_found objects ray h).1

lemma findNearest_perm (l l2 : List Surface) (ray : Ray) (h : l.Perm l2) :
    findNearest l ray = findNearest l2 ray := by
  by_cases hp : ∃ s ∈ l, 0 < s.intersect ray
  · obtain ⟨hpos1, ⟨s1, hs1, hv1⟩, hmin1⟩ := findNearest_found l ray hp
    have hp2 : ∃ s ∈ l2, 0 < s.intersect ray := by
      obtain ⟨s, hs, hpos⟩ := hp
      exact ⟨s, h.mem_iff.mp hs, hpos⟩
    obtain ⟨hpos2, ⟨s2, hs2, hv2⟩, hmin2⟩ := findNearest_found l2 ray hp2
    have h12 : findNearest l ray ≤ findNearest l2 ray := by
      rw [hv2]
      exact hmin1 s2 (h.mem_iff.mpr hs2) (hv2 ▸ hpos2)
    have h21 : findNearest l2 ray ≤ findNearest l ray := by
      rw [hv1]
      exact hmin2 s1 (h.mem_iff.mp hs1) (hv1 ▸ hpos1)
    exact le_antisymm h12 h21
  · push_neg at hp
    have hp2 : ∀ s ∈ l2, ¬ 0 < s.intersect ray := fun s hs =>
      not_lt.mpr (hp s (h.mem_iff.mpr hs))
    rw [findNearest_none l ray (fun s hs => not_lt.mpr (hp s hs)),
        findNearest_none l2 ray hp2]

/-!  Helper lemmas: characterisation of the render loop's output buffer. -/

/-- The binary color the loop body computes for pixel (i, j) at the fixed
512x512 resolution. -/
noncomputable def pixelColor (cam : Camera) (scn : List Surface) (i j : ℕ) : ℝ :=
  if 0 < findNearest scn (cam.generateRay i j 512 512) then 1 else 0

lemma mem_pixelIndices (j i : ℕ) (hj : j < 512) (hi : i < 512) :
    (j, i) ∈ pixelIndices := by
  simp only [pixelIndices, List.mem_flatMap, List.mem_map, List.mem_range]
  exact ⟨j, hj, i, hi, rfl⟩

lemma pixelIndices_bounds : ∀ ji ∈ pixelIndices, ji.1 < 512 ∧ ji.2 < 512 := by
  intro ji hji
  simp only [pixelIndices, List.mem_flatMap, List.mem_map, List.mem_range] at hji
  obtain ⟨j, hj, i, hi, rfl⟩ := hji
  exact ⟨hj, hi⟩

lemma renderWrite_at (cam : Camera) (scn : List Surface) (buf : ℕ → ℝ)
    (j i ch : ℕ) (hch : ch < 3) :
    renderWrite cam scn buf (j, i) ((j * 512 + i) * 3 + ch) =
      pixelColor cam scn i j := by
  rcases (by omega : ch = 0 ∨ ch = 1 ∨ ch = 2) with rfl | rfl | rfl <;>
    by_cases ht : 0 < findNearest scn (cam.generateRay i j 512 512) <;>
      simp [renderWrite, pixelColor, ht]

lemma renderWrite_other (cam : Camera) (scn : List Surface) (buf : ℕ → ℝ)
    (ji : ℕ × ℕ) (k : ℕ)
    (h0 : k ≠ (ji.1 * 512 + ji.2) * 3) (h1 : k ≠ (ji.1 * 512 + ji.2) * 3 + 1)
    (h2 : k ≠ (ji.1 * 512 + ji.2) * 3 + 2) :
    renderWrite cam scn buf ji k = buf k := by
  by_cases ht : 0 < findNearest scn (cam.generateRay ji.2 ji.1 512 512) <;>
    simp [renderWrite, ht, h0, h1, h2]

lemma foldl_renderWrite_preserve (cam : Camera) (scn : List Surface) :
    ∀ (L : List (ℕ × ℕ)) (buf : ℕ → ℝ) (j i ch : ℕ),
    i < 512 → ch < 3 → (∀ p ∈ L, p.2 < 512) →
    buf ((j * 512 + i) * 3 + ch) = pixelColor cam scn i j →
    (L.foldl (renderWrite cam scn) buf) ((j * 512 + i) * 3 + ch) =
      pixelColor cam scn i j
  | [], _, _, _, _, _, _, _, hbuf => hbuf
  | q :: L, buf, j, i, ch, hi, hch, hb, hbuf => by
      rw [List.foldl_cons]
      refine foldl_renderWrite_preserve cam scn L _ j i ch hi hch
        (fun p hp => hb p (List.mem_cons_of_mem q hp)) ?_
      obtain ⟨a, b⟩ := q
      by_cases hab : a = j ∧ b = i
      · obtain ⟨rfl, rfl⟩ := hab
        exact renderWrite_at cam scn buf a b ch hch
      · have hbb : b < 512 := hb (a, b) (List.mem_cons_self _ _)
        have h0 : (j * 512 + i) * 3 + ch ≠ (a * 512 + b) * 3 := by
          intro h
          exact hab (by omega)
        have h1 : (j * 512 + i) * 3 + ch ≠ (a * 512 + b) * 3 + 1 := by
          intro h
          exact hab (by omega)
        have h2 : (j * 512 + i) * 3 + ch ≠ (a * 512 + b) * 3 + 2 := by
          intro h
          exact hab (by omega)
        rw [renderWrite_other cam scn buf (a, b) ((j * 512 + i) * 3 + ch) h0 h1 h2]
        exact hbuf

lemma foldl_renderWrite_sets (cam : Camera) (scn : List Surface) :
    ∀ (L : List (ℕ × ℕ)) (buf : ℕ → ℝ) (j i ch : ℕ),
    i < 512 → ch < 3 → (∀ p ∈ L, p.2 < 512) → (j, i) ∈ L →
    (L.foldl (renderWrite cam scn) buf) ((j * 512 + i) * 3 + ch) =
      pixelColor cam scn i j
  | [], _, _, _, _, _, _, _, hmem => absurd hmem (List.not_mem_nil _)
  | q :: L, buf, j, i, ch, hi, hch, hb, hmem => by
      rw [List.foldl_cons]
      by_cases hq : q = (j, i)
      · subst hq
        exact foldl_renderWrite_preserve cam scn L _ j i ch hi hch
          (fun p hp => hb p (List.mem_cons_of_mem _ hp))
          (renderWrite_at cam scn buf j i ch hch)
      · have hmem2 : (j, i) ∈ L := by
          rcases List.mem_cons.mp hmem with h | h
          · exact absurd h.symm hq
          · exact h
        exact foldl_renderWrite_sets cam scn L _ j i ch hi hch
          (fun p hp => hb p (List.mem_cons_of_mem _ hp)) hmem2

lemma render_unfold (cam : Camera) (scn : List Surface) :
    render cam scn = pixelIndices.foldl (renderWrite cam scn) (fun _ => 0) := by
  rw [render]

lemma render_char (cam : Camera) (scn : List Surface) (i j ch : ℕ)
    (hi : i < 512) (hj : j < 512) (hch : ch < 3) :
    render cam scn ((j * 512 + i) * 3 + ch) = pixelColor cam scn i j := by
  rw [render_unfold]
  exact foldl_renderWrite_sets cam scn pixelIndices _ j i ch hi hch
    (fun p hp => (pixelIndices_bounds p hp).2) (mem_pixelIndices j i hj hi)

/-!  Helper lemmas: vector algebra and square roots. -/

lemma len2_nonneg (v : Vec3) : 0 ≤ v.len2 := by
  unfold Vec3.len2 Vec3.dot
  nlinarith [sq_nonneg v.x, sq_nonneg v.y, sq_nonneg v.z]

lemma length_sq (v : Vec3) : v.length * v.length = v.len2 :=
  Real.mul_self_sqrt (len2_nonneg v)

lemma length_pos (v : Vec3) (h : 0 < v.len2) : 0 < v.length :=
  Real.sqrt_pos.mpr h

lemma dot_normalize (p w : Vec3) :
    Vec3.dot (Vec3.normalize p) w = (Vec3.length p)⁻¹ * Vec3.dot p w := by
  unfold Vec3.normalize Vec3.smul Vec3.dot
  ring

lemma normalize_y (p : Vec3) : (Vec3.normalize p).y = (Vec3.length p)⁻¹ * p.y := rfl

lemma sqrt_ge_of_sq_le (a q : ℝ) (ha : 0 ≤ a) (h : a ^ 2 ≤ q) :
    a ≤ Real.sqrt q := by
  have h1 : Real.sqrt (a ^ 2) ≤ Real.sqrt q := Real.sqrt_le_sqrt h
  rwa [Real.sqrt_sq ha] at h1

lemma sqrt_le_of_le_sq (b q : ℝ) (hb : 0 ≤ b) (h : q ≤ b ^ 2) :
    Real.sqrt q ≤ b := by
  have h1 : Real.sqrt q ≤ Real.sqrt (b ^ 2) := Real.sqrt_le_sqrt h
  rwa [Real.sqrt_sq hb] at h1

/-!  Helper lemmas: Sphere::intersect as quantities of the unnormalized ray. -/

/-- The coefficient b computed inside Sphere::intersect. -/
noncomputable def sphereB (s : Sphere) (ray : Ray) : ℝ :=
  2 * Vec3.dot ray.direction (Vec3.sub ray.origin s.center)

/-- The constant coefficient computed inside Sphere::intersect. -/
noncomputable def sphereC (s : Sphere) (ray : Ray) : ℝ :=
  Vec3.dot (Vec3.sub ray.origin s.center) (Vec3.sub ray.origin s.center) -
    s.radius * s.radius

/-- The discriminant computed inside Sphere::intersect. -/
noncomputable def sphereDisc (s : Sphere) (ray : Ray) : ℝ :=
  sphereB s ray * sphereB s ray - 4 * sphereC s ray

lemma sphere_intersect_eq (s : Sphere) (ray : Ray) :
    s.intersect ray =
      if sphereDisc s ray < 0 then -1
      else
        if (-(sphereB s ray) - Real.sqrt (sphereDisc s ray)) * 0.5 > 0.001 then
          (-(sphereB s ray) - Real.sqrt (sphereDisc s ray)) * 0.5
        else if (-(sphereB s ray) + Real.sqrt (sphereDisc s ray)) * 0.5 > 0.001 then
          (-(sphereB s ray) + Real.sqrt (sphereDisc s ray)) * 0.5
        else -1 := rfl

lemma sphereB_make (s : Sphere) (o p : Vec3) :
    sphereB s (Ray.make o p) =
      2 * ((Vec3.length p)⁻¹ * Vec3.dot p (Vec3.sub o s.center)) := by
  unfold sphereB Ray.make
  rw [show (Ray.mk o (Vec3.normalize p)).direction = Vec3.normalize p from rfl,
      show (Ray.mk o (Vec3.normalize p)).origin = o from rfl,
      dot_normalize]

lemma sphereC_make (s : Sphere) (o p : Vec3) :
    sphereC s (Ray.make o p) =
      Vec3.dot (Vec3.sub o s.center) (Vec3.sub o s.center) - s.radius * s.radius :=
  rfl

lemma sphereDisc_mul (s : Sphere) (o p : Vec3) (hq : 0 < Vec3.len2 p) :
    sphereDisc s (Ray.make o p) * Vec3.len2 p =
      4 * (Vec3.dot p (Vec3.sub o s.center) ^ 2 -
        (Vec3.dot (Vec3.sub o s.center) (Vec3.sub o s.center) -
          s.radius * s.radius) * Vec3.len2 p) := by
  have hsp : 0 < Vec3.length p := length_pos p hq
  have hsq : Vec3.length p * Vec3.length p = Vec3.len2 p := length_sq p
  unfold sphereDisc
  rw [sphereB_make, sphereC_make, ← hsq]
  field_simp
  ring

lemma sphere_make_miss (s : Sphere) (o p : Vec3) (hq : 0 < Vec3.len2 p)
    (h : Vec3.dot p (Vec3.sub o s.center) ^ 2 <
      (Vec3.dot (Vec3.sub o s.center) (Vec3.sub o s.center) -
        s.radius * s.radius) * Vec3.len2 p) :
    s.intersect (Ray.make o p) = -1 := by
  have hmul := sphereDisc_mul s o p hq
  have hneg : sphereDisc s (Ray.make o p) < 0 := by
    by_contra hc
    push_neg at hc
    nlinarith [mul_nonneg hc hq.le]
  rw [sphere_intersect_eq, if_pos hneg]

lemma hit_arith (k cv q sq b disc s0 s1 : ℝ)
    (hq : 0 < q) (hsp : 0 < sq) (hsq : sq * sq = q)
    (hb_sq : b * sq = 2 * k)
    (hmul : disc * q = 4 * (k ^ 2 - cv * q))
    (hs0 : 0 < s0) (hsq_ge : s0 ≤ sq) (hsq_le : sq ≤ s1)
    (hk : k < 0)
    (hdisc : cv * q ≤ k ^ 2)
    (hfar : 0.002 * s1 < 2 * (-k))
    (hacne : 0.002 * (-k) < s0 * (cv + 0.000001)) :
    0 ≤ disc ∧ 0.002 < -b ∧ disc < (-b - 0.002) ^ 2 := by
  have hdq : 0 ≤ disc * q := by
    rw [hmul]
    nlinarith
  have hdisc_nonneg : 0 ≤ disc := by
    by_contra hc
    push_neg at hc
    have : disc * q < 0 := mul_neg_of_neg_of_pos hc hq
    linarith
  have hb_neg : 0.002 < -b := by
    have h1 : 0.002 * sq < (-b) * sq := by
      rw [neg_mul, hb_sq]
      calc 0.002 * sq ≤ 0.002 * s1 := by nlinarith
        _ < 2 * (-k) := hfar
        _ = -(2 * k) := by ring
    exact (mul_lt_mul_right hsp).mp h1
  have hcvpos : 0 < cv + 0.000001 := by
    by_contra hcc
    push_neg at hcc
    have h2 : s0 * (cv + 0.000001) ≤ 0 :=
      mul_nonpos_of_nonneg_of_nonpos hs0.le hcc
    nlinarith
  have hmain : 0.008 * (-k) < (4 * cv + 0.000004) * sq := by
    have h1 : 0.008 * (-k) < 4 * (s0 * (cv + 0.000001)) := by nlinarith
    have h2 : s0 * (cv + 0.000001) ≤ sq * (cv + 0.000001) :=
      mul_le_mul_of_nonneg_right hsq_ge hcvpos.le
    nlinarith
  have hrhs : (-b - 0.002) ^ 2 * q =
      4 * k ^ 2 + 0.008 * k * sq + 0.000004 * q := by
    rw [← hsq]
    linear_combination (b * sq + 2 * k + 0.004 * sq) * hb_sq
  have hlhs : disc * q = 4 * k ^ 2 - 4 * cv * q := by
    rw [hmul]
    ring
  have hgoal_mul : disc * q < (-b - 0.002) ^ 2 * q := by
    rw [hrhs, hlhs, ← hsq]
    nlinarith [mul_lt_mul_of_pos_right hmain hsp]
  exact ⟨hdisc_nonneg, hb_neg, (mul_lt_mul_right hq).mp hgoal_mul⟩

lemma sphere_make_hit (s : Sphere) (o p : Vec3) (s0 s1 : ℝ)
    (hs0 : 0 < s0) (hs1 : 0 < s1)
    (hql : s0 ^ 2 ≤ Vec3.len2 p) (hqu : Vec3.len2 p ≤ s1 ^ 2)
    (hk : Vec3.dot p (Vec3.sub o s.center) < 0)
    (hdisc : (Vec3.dot (Vec3.sub o s.center) (Vec3.sub o s.center) -
        s.radius * s.radius) * Vec3.len2 p ≤
      Vec3.dot p (Vec3.sub o s.center) ^ 2)
    (hfar : 0.002 * s1 < 2 * (-(Vec3.dot p (Vec3.sub o s.center))))
    (hacne : 0.002 * (-(Vec3.dot p (Vec3.sub o s.center))) <
      s0 * ((Vec3.dot (Vec3.sub o s.center) (Vec3.sub o s.center) -
        s.radius * s.radius) + 0.000001)) :
    0.001 < s.intersect (Ray.make o p) := by
  have hq : 0 < Vec3.len2 p := lt_of_lt_of_le (by positivity) hql
  have hsp : 0 < Vec3.length p := length_pos p hq
  have hsq : Vec3.length p * Vec3.length p = Vec3.len2 p := length_sq p
  have hsq_ge : s0 ≤ Vec3.length p := sqrt_ge_of_sq_le s0 _ hs0.le hql
  have hsq_le : Vec3.length p ≤ s1 := sqrt_le_of_le_sq s1 _ hs1.le hqu
  have hb_sq : sphereB s (Ray.make o p) * Vec3.length p =
      2 * Vec3.dot p (Vec3.sub o s.center) := by
    rw [sphereB_make]
    field_simp
  obtain ⟨hdisc_nonneg, hb_neg, hkey⟩ :=
    hit_arith (Vec3.dot p (Vec3.sub o s.center))
      (Vec3.dot (Vec3.sub o s.center) (Vec3.sub o s.center) - s.radius * s.radius)
      (Vec3.len2 p) (Vec3.length p)
      (sphereB s (Ray.make o p)) (sphereDisc s (Ray.make o p))
      s0 s1 hq hsp hsq hb_sq
      (by rw [sphereDisc_mul s o p hq])
      hs0 hsq_ge hsq_le hk
      (by nlinarith) hfar hacne
  have hsqrt : Real.sqrt (sphereDisc s (Ray.make o p)) <
      -(sphereB s (Ray.make o p)) - 0.002 := by
    have h1 : Real.sqrt (sphereDisc s (Ray.make o p)) <
        Real.sqrt ((-(sphereB s (Ray.make o p)) - 0.002) ^ 2) :=
      Real.sqrt_lt_sqrt hdisc_nonneg hkey
    rwa [Real.sqrt_sq (by linarith)] at h1
  have ht1 : (-(sphereB s (Ray.make o p)) -
      Real.sqrt (sphereDisc s (Ray.make o p))) * 0.5 > 0.001 := by linarith
  rw [sphere_intersect_eq, if_neg (not_lt.mpr hdisc_nonneg), if_pos ht1]
  linarith

/-!  Helper lemmas: Plane::intersect. -/

lemma plane_intersect_eq (pl : Plane) (ray : Ray) :
    pl.intersect ray =
      if |ray.direction.y| < 1e-6 then -1
      else if (pl.y - ray.origin.y) / ray.direction.y > 0.001 then
        (pl.y - ray.origin.y) / ray.direction.y
      else -1 := rfl

lemma plane_make_hit (pl : Plane) (o p : Vec3) (s0 s1 : ℝ)
    (hs0 : 0 < s0) (hs1 : 0 < s1)
    (hql : s0 ^ 2 ≤ Vec3.len2 p) (hqu : Vec3.len2 p ≤ s1 ^ 2)
    (hpy : p.y < 0) (hplane : pl.y < o.y)
    (hpar : 1e-6 * s1 ≤ -p.y)
    (ht : 0.001 * (-p.y) < (o.y - pl.y) * s0) :
    0.001 < pl.intersect (Ray.make o p) := by
  have hq : 0 < Vec3.len2 p := lt_of_lt_of_le (by positivity) hql
  have hsp : 0 < Vec3.length p := length_pos p hq
  set sq := Vec3.length p with hsq_def
  have hsq_ge : s0 ≤ sq := sqrt_ge_of_sq_le s0 _ hs0.le hql
  have hsq_le : sq ≤ s1 := sqrt_le_of_le_sq s1 _ hs1.le hqu
  have hdy : (Ray.make o p).direction.y = sq⁻¹ * p.y := normalize_y p
  have hdy_neg : (Ray.make o p).direction.y < 0 := by
    rw [hdy]
    exact mul_neg_of_pos_of_neg (inv_pos.mpr hsp) hpy
  have hguard : ¬ |(Ray.make o p).direction.y| < 1e-6 := by
    push_neg
    rw [abs_of_neg hdy_neg, hdy,
      show -(sq⁻¹ * p.y) = sq⁻¹ * (-p.y) by ring]
    have h1 : 1e-6 * sq ≤ -p.y := le_trans (by nlinarith) hpar
    calc (1e-6 : ℝ) = sq⁻¹ * (1e-6 * sq) := by field_simp
      _ ≤ sq⁻¹ * (-p.y) :=
        mul_le_mul_of_nonneg_left h1 (inv_pos.mpr hsp).le
  have horigin : (Ray.make o p).origin = o := rfl
  have hpyne : p.y ≠ 0 := ne_of_lt hpy
  have hsqne : sq ≠ 0 := ne_of_gt hsp
  have htval : 0.001 < (pl.y - (Ray.make o p).origin.y) / (Ray.make o p).direction.y := by
    rw [horigin, hdy]
    have hty : (pl.y - o.y) / (sq⁻¹ * p.y) * (-p.y) = (o.y - pl.y) * sq := by
      field_simp
      ring
    have hgt : 0.001 * (-p.y) < (pl.y - o.y) / (sq⁻¹ * p.y) * (-p.y) := by
      rw [hty]
      calc 0.001 * (-p.y) < (o.y - pl.y) * s0 := ht
        _ ≤ (o.y - pl.y) * sq := by nlinarith
    have hpy_pos : 0 < -p.y := by linarith
    exact (mul_lt_mul_right hpy_pos).mp hgt
  rw [plane_intersect_eq, if_neg hguard, if_pos htval]
  exact htval

lemma plane_make_miss (pl : Plane) (o p : Vec3)
    (h : (pl.y - o.y) * p.y ≤ 0) :
    pl.intersect (Ray.make o p) = -1 := by
  rw [plane_intersect_eq]
  by_cases hguard : |(Ray.make o p).direction.y| < 1e-6
  · rw [if_pos hguard]
  · rw [if_neg hguard]
    have hdy : (Ray.make o p).direction.y = (Vec3.length p)⁻¹ * p.y := normalize_y p
    have hdyne : (Ray.make o p).direction.y ≠ 0 :=
      fun h0 => hguard (by rw [h0]; norm_num)
    have hinv_nonneg : 0 ≤ (Vec3.length p)⁻¹ := inv_nonneg.mpr (Real.sqrt_nonneg _)
    have hdy2 : 0 < (Ray.make o p).direction.y ^ 2 :=
      pow_two_pos_of_ne_zero hdyne
    have htmul : (pl.y - (Ray.make o p).origin.y) / (Ray.make o p).direction.y *
        (Ray.make o p).direction.y ^ 2 =
        (pl.y - o.y) * (Ray.make o p).direction.y := by
      rw [show (Ray.make o p).origin = o from rfl]
      field_simp
      ring
    have hprod : (pl.y - o.y) * (Ray.make o p).direction.y ≤ 0 := by
      rw [hdy, show (pl.y - o.y) * ((Vec3.length p)⁻¹ * p.y) =
        (Vec3.length p)⁻¹ * ((pl.y - o.y) * p.y) by ring]
      exact mul_nonpos_of_nonneg_of_nonpos hinv_nonneg h
    have hneg : ¬ (pl.y - (Ray.make o p).origin.y) / (Ray.make o p).direction.y > 0.001 := by
      intro hc
      nlinarith [mul_pos (lt_trans (by norm_num : (0:ℝ) < 0.001) hc) hdy2]
    rw [if_neg hneg]

/-!  Concrete rays cast by the program for particular pixels. -/

lemma ray256_eq : camera0.generateRay 256 256 512 512 =
    Ray.make ⟨0, 0, 0⟩ ⟨1 / 5120, 1 / 5120, -(1 / 10)⟩ := by
  unfold Camera.generateRay
  congr 1
  simp only [camera0, Vec3.sub, Vec3.mk.injEq]
  norm_num

lemma ray00_eq : camera0.generateRay 0 0 512 512 =
    Ray.make ⟨0, 0, 0⟩ ⟨-(511 / 5120), -(511 / 5120), -(1 / 10)⟩ := by
  unfold Camera.generateRay
  congr 1
  simp only [camera0, Vec3.sub, Vec3.mk.injEq]
  norm_num

lemma ray0400_eq : camera0.generateRay 0 400 512 512 =
    Ray.make ⟨0, 0, 0⟩ ⟨-(511 / 5120), 289 / 5120, -(1 / 10)⟩ := by
  unfold Camera.generateRay
  congr 1
  simp only [camera0, Vec3.sub, Vec3.mk.injEq]
  norm_num

lemma raySpec_eq : camera0.generateRay 0 200 1024 768 =
    Ray.make ⟨0, 0, 0⟩ ⟨-(1023 / 10240), -(367 / 7680), -(1 / 10)⟩ := by
  unfold Camera.generateRay
  congr 1
  simp only [camera0, Vec3.sub, Vec3.mk.injEq]
  norm_num

/-!  Concrete intersection results at those rays. -/

lemma plane00_hit :
    0.001 < Plane.intersect ⟨-2⟩ (camera0.generateRay 0 0 512 512) := by
  rw [ray00_eq]
  apply plane_make_hit _ _ _ (1 / 10) 1 (by norm_num) (by norm_num)
  · norm_num [Vec3.len2, Vec3.dot]
  · norm_num [Vec3.len2, Vec3.dot]
  · norm_num
  · norm_num
  · norm_num
  · norm_num

lemma s1_00_miss :
    Sphere.intersect ⟨⟨-4, 0, -7⟩, 1⟩ (camera0.generateRay 0 0 512 512) = -1 := by
  rw [ray00_eq]
  apply sphere_make_miss
  · norm_num [Vec3.len2, Vec3.dot]
  · norm_num [Vec3.len2, Vec3.dot, Vec3.sub]

lemma s2_00_miss :
    Sphere.intersect ⟨⟨0, 0, -7⟩, 2⟩ (camera0.generateRay 0 0 512 512) = -1 := by
  rw [ray00_eq]
  apply sphere_make_miss
  · norm_num [Vec3.len2, Vec3.dot]
  · norm_num [Vec3.len2, Vec3.dot, Vec3.sub]

lemma s3_00_miss :
    Sphere.intersect ⟨⟨4, 0, -7⟩, 1⟩ (camera0.generateRay 0 0 512 512) = -1 := by
  rw [ray00_eq]
  apply sphere_make_miss
  · norm_num [Vec3.len2, Vec3.dot]
  · norm_num [Vec3.len2, Vec3.dot, Vec3.sub]

lemma s2_256_hit :
    0.001 < Sphere.intersect ⟨⟨0, 0, -7⟩, 2⟩ (camera0.generateRay 256 256 512 512) := by
  rw [ray256_eq]
  apply sphere_make_hit _ _ _ (1 / 10) 1 (by norm_num) (by norm_num)
  · norm_num [Vec3.len2, Vec3.dot]
  · norm_num [Vec3.len2, Vec3.dot]
  · norm_num [Vec3.dot, Vec3.sub]
  · norm_num [Vec3.len2, Vec3.dot, Vec3.sub]
  · norm_num [Vec3.dot, Vec3.sub]
  · norm_num [Vec3.dot, Vec3.sub]

lemma plane0400_miss :
    Plane.intersect ⟨-2⟩ (camera0.generateRay 0 400 512 512) = -1 := by
  rw [ray0400_eq]
  apply plane_make_miss
  norm_num

lemma s1_0400_miss :
    Sphere.intersect ⟨⟨-4, 0, -7⟩, 1⟩ (camera0.generateRay 0 400 512 512) = -1 := by
  rw [ray0400_eq]
  apply sphere_make_miss
  · norm_num [Vec3.len2, Vec3.dot]
  · norm_num [Vec3.len2, Vec3.dot, Vec3.sub]

lemma s2_0400_miss :
    Sphere.intersect ⟨⟨0, 0, -7⟩, 2⟩ (camera0.generateRay 0 400 512 512) = -1 := by
  rw [ray0400_eq]
  apply sphere_make_miss
  · norm_num [Vec3.len2, Vec3.dot]
  · norm_num [Vec3.len2, Vec3.dot, Vec3.sub]

lemma s3_0400_miss :
    Sphere.intersect ⟨⟨4, 0, -7⟩, 1⟩ (camera0.generateRay 0 400 512 512) = -1 := by
  rw [ray0400_eq]
  apply sphere_make_miss
  · norm_num [Vec3.len2, Vec3.dot]
  · norm_num [Vec3.len2, Vec3.dot, Vec3.sub]

lemma planeSpec_hit :
    0.001 < Plane.intersect ⟨-2⟩ (camera0.generateRay 0 200 1024 768) := by
  rw [raySpec_eq]
  apply plane_make_hit _ _ _ (1 / 10) 1 (by norm_num) (by norm_num)
  · norm_num [Vec3.len2, Vec3.dot]
  · norm_num [Vec3.len2, Vec3.dot]
  · norm_num
  · norm_num
  · norm_num
  · norm_num

/-!  Pixel colors and concrete buffer entries. -/

lemma plane_mem_scene0 : Surface.plane ⟨-2⟩ ∈ scene0 :=
  List.mem_cons_self _ _

lemma s2_mem_scene0 : Surface.sphere ⟨⟨0, 0, -7⟩, 2⟩ ∈ scene0 :=
  List.mem_cons_of_mem _ (List.mem_cons_of_mem _ (List.mem_cons_self _ _))

lemma findNearest00_pos :
    0 < findNearest scene0 (camera0.generateRay 0 0 512 512) := by
  rw [findNearest_pos_iff]
  refine ⟨Surface.plane ⟨-2⟩, plane_mem_scene0, ?_⟩
  show 0 < Plane.intersect ⟨-2⟩ (camera0.generateRay 0 0 512 512)
  linarith [plane00_hit]

lemma findNearest256_pos :
    0 < findNearest scene0 (camera0.generateRay 256 256 512 512) := by
  rw [findNearest_pos_iff]
  refine ⟨Surface.sphere ⟨⟨0, 0, -7⟩, 2⟩, s2_mem_scene0, ?_⟩
  show 0 < Sphere.intersect ⟨⟨0, 0, -7⟩, 2⟩ (camera0.generateRay 256 256 512 512)
  linarith [s2_256_hit]

lemma findNearestSpec_pos :
    0 < findNearest scene0 (camera0.generateRay 0 200 1024 768) := by
  rw [findNearest_pos_iff]
  refine ⟨Surface.plane ⟨-2⟩, plane_mem_scene0, ?_⟩
  show 0 < Plane.intersect ⟨-2⟩ (camera0.generateRay 0 200 1024 768)
  linarith [planeSpec_hit]

lemma findNearest0400_neg :
    findNearest scene0 (camera0.generateRay 0 400 512 512) = -1 := by
  apply findNearest_none
  intro s hs
  unfold scene0 at hs
  fin_cases hs
  · show ¬ 0 < Plane.intersect ⟨-2⟩ (camera0.generateRay 0 400 512 512)
    rw [plane0400_miss]
    norm_num
  · show ¬ 0 < Sphere.intersect ⟨⟨-4, 0, -7⟩, 1⟩ (camera0.generateRay 0 400 512 512)
    rw [s1_0400_miss]
    norm_num
  · show ¬ 0 < Sphere.intersect ⟨⟨0, 0, -7⟩, 2⟩ (camera0.generateRay 0 400 512 512)
    rw [s2_0400_miss]
    norm_num
  · show ¬ 0 < Sphere.intersect ⟨⟨4, 0, -7⟩, 1⟩ (camera0.generateRay 0 400 512 512)
    rw [s3_0400_miss]
    norm_num

lemma pixel00_white : pixelColor camera0 scene0 0 0 = 1 := by
  unfold pixelColor
  rw [if_pos findNearest00_pos]

lemma pixel256_white : pixelColor camera0 scene0 256 256 = 1 := by
  unfold pixelColor
  rw [if_pos findNearest256_pos]

lemma pixel0400_black : pixelColor camera0 scene0 0 400 = 0 := by
  unfold pixelColor
  rw [findNearest0400_neg, if_neg (by norm_num)]

lemma render00_white : render camera0 scene0 ((0 * 512 + 0) * 3) = 1 :=
  (render_char camera0 scene0 0 0 0 (by norm_num) (by norm_num) (by norm_num)).trans
    pixel00_white

lemma render256_white : render camera0 scene0 ((256 * 512 + 256) * 3) = 1 :=
  (render_char camera0 scene0 256 256 0 (by norm_num) (by norm_num) (by norm_num)).trans
    pixel256_white

lemma render0400_black : render camera0 scene0 614400 = 0 := by
  rw [show (614400 : ℕ) = (400 * 512 + 0) * 3 + 0 by norm_num,
    render_char camera0 scene0 0 400 0 (by norm_num) (by norm_num) (by norm_num)]
  exact pixel0400_black

lemma renderSpec614400 : renderAsSpecified camera0 scene0 1024 768 614400 = 1 := by
  simp only [renderAsSpecified]
  rw [if_pos (by norm_num : (614400 : ℕ) < 1024 * 768 * 3)]
  rw [show (614400 : ℕ) / 3 % 1024 = 0 by norm_num,
    show (614400 : ℕ) / 3 / 1024 = 200 by norm_num]
  rw [if_pos findNearestSpec_pos]

/-!  Helper lemmas: epsilon band, unit direction, axis-aligned evaluation. -/

lemma surface_eps (surf : Surface) (ray : Ray) :
    0.001 < surf.intersect ray ∨ surf.intersect ray = -1 := by
  cases surf with
  | sphere s =>
      show 0.001 < s.intersect ray ∨ s.intersect ray = -1
      rw [sphere_intersect_eq]
      split_ifs with h1 h2 h3
      · exact Or.inr rfl
      · exact Or.inl h2
      · exact Or.inl h3
      · exact Or.inr rfl
  | plane p =>
      show 0.001 < p.intersect ray ∨ p.intersect ray = -1
      rw [plane_intersect_eq]
      split_ifs with h1 h2
      · exact Or.inr rfl
      · exact Or.inl h2
      · exact Or.inr rfl

lemma findNearest_eps (objects : List Surface) (ray : Ray) :
    0.001 < findNearest objects ray ∨ findNearest objects ray = -1 := by
  by_cases hp : ∃ s ∈ objects, 0 < s.intersect ray
  · obtain ⟨hpos, ⟨s, hs, hv⟩, hmin⟩ := findNearest_found objects ray hp
    rcases surface_eps s ray with h | h
    · exact Or.inl (by rw [hv]; exact h)
    · rw [hv, h] at hpos
      norm_num at hpos
  · push_neg at hp
    exact Or.inr (findNearest_none objects ray (fun s hs => not_lt.mpr (hp s hs)))

lemma len2_pos_of_ne_zero (v : Vec3) (h : v ≠ ⟨0, 0, 0⟩) : 0 < Vec3.len2 v := by
  rcases v with ⟨x, y, z⟩
  rcases lt_or_eq_of_le (len2_nonneg ⟨x, y, z⟩) with hlt | heq
  · exact hlt
  · exfalso
    have h2 : x * x + y * y + z * z = 0 := by
      unfold Vec3.len2 Vec3.dot at heq
      linarith
    have hxx : x * x ≤ 0 := by nlinarith [mul_self_nonneg y, mul_self_nonneg z]
    have hyy : y * y ≤ 0 := by nlinarith [mul_self_nonneg x, mul_self_nonneg z]
    have hzz : z * z ≤ 0 := by nlinarith [mul_self_nonneg x, mul_self_nonneg y]
    exact h (by rw [mul_self_eq_zero.mp (le_antisymm hxx (mul_self_nonneg x)),
      mul_self_eq_zero.mp (le_antisymm hyy (mul_self_nonneg y)),
      mul_self_eq_zero.mp (le_antisymm hzz (mul_self_nonneg z))])

lemma length_normalize (v : Vec3) (hq : 0 < Vec3.len2 v) :
    Vec3.length (Vec3.normalize v) = 1 := by
  have hsp : 0 < Vec3.length v := length_pos v hq
  have hsq : Vec3.length v * Vec3.length v = Vec3.len2 v := length_sq v
  have hlen2 : Vec3.len2 (Vec3.normalize v) = 1 := by
    have hexp : Vec3.len2 (Vec3.normalize v) =
        (Vec3.length v)⁻¹ * (Vec3.length v)⁻¹ * Vec3.len2 v := by
      unfold Vec3.normalize Vec3.smul Vec3.len2 Vec3.dot
      ring
    rw [hexp, ← hsq]
    field_simp
  unfold Vec3.length
  rw [hlen2, Real.sqrt_one]

lemma sqrt16_eq : Real.sqrt 16 = 4 := by
  rw [show (16 : ℝ) = 4 ^ 2 by norm_num, Real.sqrt_sq (by norm_num)]

lemma sphere_axis_eval :
    Sphere.intersect ⟨⟨0, 0, -7⟩, 2⟩ ⟨⟨0, 0, 0⟩, ⟨0, 0, -1⟩⟩ = 5 := by
  have hB : sphereB ⟨⟨0, 0, -7⟩, 2⟩ ⟨⟨0, 0, 0⟩, ⟨0, 0, -1⟩⟩ = -14 := by
    unfold sphereB Vec3.dot Vec3.sub
    norm_num
  have hD : sphereDisc ⟨⟨0, 0, -7⟩, 2⟩ ⟨⟨0, 0, 0⟩, ⟨0, 0, -1⟩⟩ = 16 := by
    unfold sphereDisc sphereC Vec3.dot Vec3.sub
    rw [hB]
    norm_num
  rw [sphere_intersect_eq, hD, hB, sqrt16_eq]
  norm_num

/-!  Claim theorems. -/

/-- C1: for every ray, Scene::findNearest returns the minimum of the positive
values among surface.intersect(ray) over all surfaces in the scene (and the
negative sentinel -1 when no surface reports a positive t), and the result is
invariant under any permutation of the scene's surface collection. -/
theorem C1_findNearest_minimum (objects : List Surface) (ray : Ray) :
    ((∀ s ∈ objects, ¬ 0 < s.intersect ray) → findNearest objects ray = -1) ∧
    ((∃ s ∈ objects, 0 < s.intersect ray) →
      (∃ s ∈ objects, findNearest objects ray = s.intersect ray ∧
        0 < s.intersect ray) ∧
      ∀ s ∈ objects, 0 < s.intersect ray →
        findNearest objects ray ≤ s.intersect ray) ∧
    ∀ objects2, objects.Perm objects2 →
      findNearest objects ray = findNearest objects2 ray := by
  refine ⟨findNearest_none objects ray, ?_, fun l2 h => findNearest_perm _ _ ray h⟩
  intro hex
  obtain ⟨hpos, ⟨s, hs, hv⟩, hmin⟩ := findNearest_found objects ray hex
  exact ⟨⟨s, hs, hv, hv ▸ hpos⟩, hmin⟩

/-- Witness for C1 at the one-sphere scene and the axis-aligned ray, where the
sphere reports distance 5. -/
theorem C1_witness :
    (∃ s ∈ ([Surface.sphere ⟨⟨0, 0, -7⟩, 2⟩] : List Surface),
      0 < Surface.intersect s ⟨⟨0, 0, 0⟩, ⟨0, 0, -1⟩⟩) ∧
    (∃ s ∈ ([Surface.sphere ⟨⟨0, 0, -7⟩, 2⟩] : List Surface),
      findNearest [Surface.sphere ⟨⟨0, 0, -7⟩, 2⟩] ⟨⟨0, 0, 0⟩, ⟨0, 0, -1⟩⟩ =
        Surface.intersect s ⟨⟨0, 0, 0⟩, ⟨0, 0, -1⟩⟩ ∧
      0 < Surface.intersect s ⟨⟨0, 0, 0⟩, ⟨0, 0, -1⟩⟩) ∧
    findNearest [Surface.sphere ⟨⟨0, 0, -7⟩, 2⟩] ⟨⟨0, 0, 0⟩, ⟨0, 0, -1⟩⟩ =
      findNearest [Surface.sphere ⟨⟨0, 0, -7⟩, 2⟩] ⟨⟨0, 0, 0⟩, ⟨0, 0, -1⟩⟩ := by
  have hex : ∃ s ∈ ([Surface.sphere ⟨⟨0, 0, -7⟩, 2⟩] : List Surface),
      0 < Surface.intersect s ⟨⟨0, 0, 0⟩, ⟨0, 0, -1⟩⟩ := by
    refine ⟨Surface.sphere ⟨⟨0, 0, -7⟩, 2⟩, List.mem_cons_self _ _, ?_⟩
    show 0 < Sphere.intersect ⟨⟨0, 0, -7⟩, 2⟩ ⟨⟨0, 0, 0⟩, ⟨0, 0, -1⟩⟩
    rw [sphere_axis_eval]
    norm_num
  have h := C1_findNearest_minimum [Surface.sphere ⟨⟨0, 0, -7⟩, 2⟩]
    ⟨⟨0, 0, 0⟩, ⟨0, 0, -1⟩⟩
  exact ⟨hex, (h.2.1 hex).1, h.2.2 _ (List.Perm.refl _)⟩

/-- C2: Sphere::intersect computes b = 2 direction.(origin-center),
c = |origin-center|^2 - radius^2, disc = b^2 - 4c; it returns the sentinel -1
when disc < 0, and otherwise, with roots t1 = (-b - sqrt disc)/2 and
t2 = (-b + sqrt disc)/2, returns t1 if t1 > 0.001, else t2 if t2 > 0.001,
else -1. -/
theorem C2_sphere_intersect_roots (s : Sphere) (ray : Ray) (_hr : 0 < s.radius)
    (b cq disc t1 t2 : ℝ)
    (hb : b = 2 * Vec3.dot ray.direction (Vec3.sub ray.origin s.center))
    (hc : cq = Vec3.dot (Vec3.sub ray.origin s.center) (Vec3.sub ray.origin s.center) -
      s.radius ^ 2)
    (hdisc : disc = b ^ 2 - 4 * cq)
    (ht1 : t1 = (-b - Real.sqrt disc) / 2)
    (ht2 : t2 = (-b + Real.sqrt disc) / 2) :
    (disc < 0 → s.intersect ray = -1) ∧
    (0 ≤ disc →
      s.intersect ray = if t1 > 0.001 then t1 else if t2 > 0.001 then t2 else -1) := by
  have hB : sphereB s ray = b := by
    rw [hb]
    rfl
  have hD : sphereDisc s ray = disc := by
    rw [hdisc, hc, ← hB]
    unfold sphereDisc sphereB sphereC
    ring
  constructor
  · intro h
    rw [sphere_intersect_eq, hD, if_pos h]
  · intro h
    rw [sphere_intersect_eq, hD, if_neg (not_lt.mpr h), hB]
    have e1 : (-b - Real.sqrt disc) * 0.5 = t1 := by
      rw [ht1]
      ring
    have e2 : (-b + Real.sqrt disc) * 0.5 = t2 := by
      rw [ht2]
      ring
    rw [e1, e2]

/-- Witness for C2: the axis-aligned ray against the central sphere, where
b = -14, c = 45, disc = 16 and the returned root is t1 = 5. -/
theorem C2_witness :
    (0 : ℝ) < 2 ∧
    Sphere.intersect ⟨⟨0, 0, -7⟩, 2⟩ ⟨⟨0, 0, 0⟩, ⟨0, 0, -1⟩⟩ = 5 := by
  refine ⟨by norm_num, ?_⟩
  have h := (C2_sphere_intersect_roots ⟨⟨0, 0, -7⟩, 2⟩ ⟨⟨0, 0, 0⟩, ⟨0, 0, -1⟩⟩
    (by norm_num) (-14) 45 16 5 9
    (by norm_num [Vec3.dot, Vec3.sub])
    (by norm_num [Vec3.dot, Vec3.sub])
    (by norm_num)
    (by rw [sqrt16_eq]; norm_num)
    (by rw [sqrt16_eq]; norm_num)).2 (by norm_num)
  rw [h]
  norm_num

/-- C5: Plane::intersect returns -1 whenever the vertical direction component
is smaller than 1e-6 in absolute value (in particular for a ray with zero
vertical direction, whatever its origin), and otherwise returns
t = (h - origin.y)/direction.y when t > 0.001, else -1. -/
theorem C5_plane_intersect_formula (pl : Plane) (ray : Ray) :
    (|ray.direction.y| < 1e-6 → pl.intersect ray = -1) ∧
    (ray.direction.y = 0 → pl.intersect ray = -1) ∧
    (1e-6 ≤ |ray.direction.y| →
      pl.intersect ray =
        if (pl.y - ray.origin.y) / ray.direction.y > 0.001 then
          (pl.y - ray.origin.y) / ray.direction.y
        else -1) := by
  refine ⟨?_, ?_, ?_⟩
  · intro h
    rw [plane_intersect_eq, if_pos h]
  · intro h
    rw [plane_intersect_eq, if_pos (by rw [h]; norm_num)]
  · intro h
    rw [plane_intersect_eq, if_neg (not_lt.mpr h)]

/-- Witness for C5: a straight-down ray from the origin against the plane
y = -2 returns distance 2; a horizontal ray returns -1. -/
theorem C5_witness :
    (1e-6 : ℝ) ≤ |(Ray.mk ⟨0, 0, 0⟩ ⟨0, -1, 0⟩).direction.y| ∧
    Plane.intersect ⟨-2⟩ ⟨⟨0, 0, 0⟩, ⟨0, -1, 0⟩⟩ = 2 ∧
    (Ray.mk ⟨0, 0, 0⟩ ⟨1, 0, 0⟩).direction.y = 0 ∧
    Plane.intersect ⟨-2⟩ ⟨⟨0, 0, 0⟩, ⟨1, 0, 0⟩⟩ = -1 := by
  refine ⟨?_, ?_, rfl, ?_⟩
  · show (1e-6 : ℝ) ≤ |(-1 : ℝ)|
    norm_num
  · have h := (C5_plane_intersect_formula ⟨-2⟩ ⟨⟨0, 0, 0⟩, ⟨0, -1, 0⟩⟩).2.2
      (by show (1e-6 : ℝ) ≤ |(-1 : ℝ)|; norm_num)
    rw [h]
    norm_num
  · exact (C5_plane_intersect_formula ⟨-2⟩ ⟨⟨0, 0, 0⟩, ⟨1, 0, 0⟩⟩).2.1 rfl

/-- C6: Camera::generateRay produces the ray with origin eye and direction the
normalization of imagePoint - eye, where imagePoint = (u, v, -distance) with
u = l + (r-l)(col+0.5)/imageWidth and v = b + (t-b)(row+0.5)/imageHeight; as a
pure function of its arguments it is deterministic and has no side effects. -/
theorem C6_generateRay_formula (cam : Camera) (i j nx ny : ℕ) :
    (cam.generateRay i j nx ny).origin = cam.eye ∧
    (cam.generateRay i j nx ny).direction =
      Vec3.normalize (Vec3.sub
        ⟨cam.l + (cam.r - cam.l) * (((i : ℝ) + 0.5) / (nx : ℝ)),
         cam.b + (cam.t - cam.b) * (((j : ℝ) + 0.5) / (ny : ℝ)),
         -cam.d⟩ cam.eye) :=
  ⟨rfl, rfl⟩

/-- C9: the Ray constructor stores the normalization of the given non-zero raw
direction, so every constructed Ray direction has magnitude exactly 1 (the
record is immutable once built). -/
theorem C9_ray_direction_unit (o d : Vec3) (hd : d ≠ ⟨0, 0, 0⟩) :
    Vec3.length ((Ray.make o d).direction) = 1 :=
  length_normalize d (len2_pos_of_ne_zero d hd)

/-- Witness for C9 at the raw direction (3, 0, 4). -/
theorem C9_witness :
    ((⟨3, 0, 4⟩ : Vec3) ≠ ⟨0, 0, 0⟩) ∧
    Vec3.length ((Ray.make ⟨0, 0, 0⟩ ⟨3, 0, 4⟩).direction) = 1 :=
  ⟨by norm_num [Vec3.mk.injEq],
   C9_ray_direction_unit ⟨0, 0, 0⟩ ⟨3, 0, 4⟩ (by norm_num [Vec3.mk.injEq])⟩

/-- C10: every Sphere/Plane intersect result is either strictly greater than
0.001 or exactly -1, never in (0, 0.001]; hence findNearest likewise, and the
render test t > 0 is equivalent to t > 0.001. -/
theorem C10_no_values_in_acne_band (surf : Surface) (objects : List Surface)
    (ray : Ray) :
    (0.001 < surf.intersect ray ∨ surf.intersect ray = -1) ∧
    (0.001 < findNearest objects ray ∨ findNearest objects ray = -1) ∧
    (0 < findNearest objects ray ↔ 0.001 < findNearest objects ray) := by
  refine ⟨surface_eps surf ray, findNearest_eps objects ray, ?_, ?_⟩
  · intro h
    rcases findNearest_eps objects ray with h2 | h2
    · exact h2
    · rw [h2] at h
      norm_num at h
  · intro h
    linarith

/-- C7: for every pixel processed by the render loop, all three channels of
the pixel's buffer slot at flat index (j*512+i)*3 receive 1 when the nearest
hit distance is positive and 0 otherwise. -/
theorem C7_pixel_binary_color (cam : Camera) (scn : List Surface) (i j ch : ℕ)
    (hi : i < 512) (hj : j < 512) (hch : ch < 3) :
    render cam scn ((j * 512 + i) * 3 + ch) =
      if 0 < findNearest scn (cam.generateRay i j 512 512) then 1 else 0 :=
  render_char cam scn i j ch hi hj hch

/-- Witness for C7 at pixel (0,0), channel 0, with the program's camera and
scene. -/
theorem C7_witness :
    (0 : ℕ) < 512 ∧ (0 : ℕ) < 3 ∧
    render camera0 scene0 ((0 * 512 + 0) * 3 + 0) =
      if 0 < findNearest scene0 (camera0.generateRay 0 0 512 512) then 1 else 0 :=
  ⟨by norm_num, by norm_num,
   C7_pixel_binary_color camera0 scene0 0 0 0 (by norm_num) (by norm_num) (by norm_num)⟩

/-- C8: rendering twice with unchanged camera, scene and resolution yields
identical buffers, and resizing to a new resolution and back to the original
restores the original buffer (and width/height) exactly. -/
theorem C8_render_idempotent_resize_restore (cam : Camera) (scn : List Surface)
    (st : GState) (w1 h1 : ℤ) :
    (renderState cam scn (renderState cam scn st)).OutputImage =
      (renderState cam scn st).OutputImage ∧
    (resize_callback cam scn
        (resize_callback cam scn (renderState cam scn st) w1 h1)
        (renderState cam scn st).Width (renderState cam scn st).Height).OutputImage =
      (renderState cam scn st).OutputImage ∧
    (resize_callback cam scn
        (resize_callback cam scn (renderState cam scn st) w1 h1)
        (renderState cam scn st).Width (renderState cam scn st).Height).Width =
      (renderState cam scn st).Width ∧
    (resize_callback cam scn
        (resize_callback cam scn (renderState cam scn st) w1 h1)
        (renderState cam scn st).Width (renderState cam scn st).Height).Height =
      (renderState cam scn st).Height :=
  ⟨(renderState_OutputImage _ _ _).trans (renderState_OutputImage _ _ _).symm,
   (resize_OutputImage _ _ _ _ _).trans (renderState_OutputImage _ _ _).symm,
   resize_Width _ _ _ _ _,
   resize_Height _ _ _ _ _⟩

/-- C3 (divergence witness): after a resize to 1024x768 the stored size is
updated, but the re-rendered buffer is still the fixed 512x512 one: at flat
index 614400 the code's buffer holds 0 (written as pixel (0,400) of the fixed
512-wide grid), while the pass the claim describes would hold 1 there (pixel
(0,200) of a 1024-wide grid, which hits the ground plane). -/
theorem C3_resize_rerenders_fixed_512 :
    (resize_callback camera0 scene0 initState 1024 768).Width = 1024 ∧
    (resize_callback camera0 scene0 initState 1024 768).Height = 768 ∧
    (resize_callback camera0 scene0 initState 1024 768).OutputImage 614400 = 0 ∧
    renderAsSpecified camera0 scene0 1024 768 614400 = 1 :=
  ⟨resize_Width _ _ _ _ _, resize_Height _ _ _ _ _,
   (congrFun (resize_OutputImage _ _ _ _ _) 614400).trans render0400_black,
   renderSpec614400⟩

/-- C4 counterexample: with the program's camera and scene, the pixel at
(col=0,row=0) is rendered white (value 1), not black (value 0): its ray points
below the horizon and hits the ground plane y = -2. -/
theorem C4_corner_pixel_white_counterexample :
    render camera0 scene0 ((0 * 512 + 0) * 3) = 1 ∧ (1 : ℝ) ≠ 0 :=
  ⟨render00_white, by norm_num⟩

/-- C4 (amended): the center pixel (256,256) hits the sphere at (0,0,-7) of
radius 2 and is rendered white; the corner pixel (0,0) misses all three
spheres but hits the plane y = -2, so it is rendered white as well. -/
theorem C4_center_sphere_corner_plane :
    0.001 < Surface.intersect (Surface.sphere ⟨⟨0, 0, -7⟩, 2⟩)
      (camera0.generateRay 256 256 512 512) ∧
    render camera0 scene0 ((256 * 512 + 256) * 3) = 1 ∧
    Surface.intersect (Surface.sphere ⟨⟨-4, 0, -7⟩, 1⟩)
      (camera0.generateRay 0 0 512 512) = -1 ∧
    Surface.intersect (Surface.sphere ⟨⟨0, 0, -7⟩, 2⟩)
      (camera0.generateRay 0 0 512 512) = -1 ∧
    Surface.intersect (Surface.sphere ⟨⟨4, 0, -7⟩, 1⟩)
      (camera0.generateRay 0 0 512 512) = -1 ∧
    0.001 < Surface.intersect (Surface.plane ⟨-2⟩)
      (camera0.generateRay 0 0 512 512) ∧
    render camera0 scene0 ((0 * 512 + 0) * 3) = 1 :=
  ⟨s2_256_hit, render256_white, s1_00_miss, s2_00_miss, s3_00_miss,
   plane00_hit, render00_white⟩
